import Mathlib

/-!
Verification of the OpenBao secrets importer's import engine
(`internal/cli/import.go`): path-prefix normalization, the parallel
per-secret import step and its result aggregation, the interactive
confirmation loop with its sticky `confirmAll` / `skipAll` flags, and the
flag validation in `runImport`.

Go strings are modelled as lists of characters; the OpenBao client is
modelled as a pair of response functions (`SecretExists`, `WriteSecret`),
and every call the engine makes to the client is recorded in an event
trace so that claims about which calls happen (and in what order) are
provable.
-/

namespace Importer

/-- Go strings (paths, prefixes), modelled as lists of characters. -/
abbrev GoString := List Char

/-- strings.HasSuffix(s, "/"): the last character is a slash. -/
def endsWithSlash (s : GoString) : Bool := s.getLast? = some '/'

/-- strings.TrimPrefix(s, "/"): one leading slash removed when present. -/
def trimLeadingSlash : GoString → GoString
  | [] => []
  | c :: rest => if c = '/' then rest else c :: rest

/-- Whether the string starts with two slashes (used to state where the
normalizer's guarantees hold). -/
def startsWithTwoSlashes : GoString → Bool
  | c :: d :: _ => c = '/' && d = '/'
  | _ => false

/-- Whether the string ends with two slashes: its last character and the
one before it are both slashes. -/
def endsWithTwoSlashes (s : GoString) : Bool :=
  endsWithSlash s && endsWithSlash s.dropLast

/-- normalizePathPrefix from import.go: empty or "/" collapses to no
prefix; otherwise a trailing "/" is appended when missing and then one
leading "/" is trimmed. -/
def normalizePathPrefix (p : GoString) : GoString :=
  if p = [] ∨ p = ['/'] then []
  else trimLeadingSlash (if endsWithSlash p then p else p ++ ['/'])

/-- A secret from the validated export file: a path and key-value data. -/
structure Secret where
  path : GoString
  data : List (GoString × GoString)
deriving DecidableEq, Repr

/-- The OpenBao client, modelled by the responses of its two operations
used by the engine: SecretExists and WriteSecret. -/
structure Client where
  secretExists : GoString → Except String Bool
  writeSecret : GoString → List (GoString × GoString) → Except String Unit

/-- One call made to the Target, or one interactive prompt shown. -/
inductive TEvent where
  | existsCheck (path : GoString)
  | writeCall (path : GoString)
  | prompt (index : Nat)
deriving DecidableEq, Repr

/-- ImportResult from import.go; fields default to the Go zero value. -/
structure ImportResult where
  path : GoString
  success : Bool := false
  skipped : Bool := false
  error : Option String := none
deriving DecidableEq, Repr

/-- importSecret from import.go, returning the result together with the
Target calls it makes (in order). -/
def importSecret (client : Client) (skipExisting overwriteAll : Bool)
    (pfx : GoString) (s : Secret) : ImportResult × List TEvent :=
  let destPath := pfx ++ s.path
  if skipExisting && !overwriteAll then
    match client.secretExists destPath with
    | .error e =>
        ({ path := destPath, error := some ("failed to check existence: " ++ e) },
         [.existsCheck destPath])
    | .ok true =>
        ({ path := destPath, success := true, skipped := true }, [.existsCheck destPath])
    | .ok false =>
        match client.writeSecret destPath s.data with
        | .error e =>
            ({ path := destPath, error := some e },
             [.existsCheck destPath, .writeCall destPath])
        | .ok _ =>
            ({ path := destPath, success := true },
             [.existsCheck destPath, .writeCall destPath])
  else
    match client.writeSecret destPath s.data with
    | .error e => ({ path := destPath, error := some e }, [.writeCall destPath])
    | .ok _ => ({ path := destPath, success := true }, [.writeCall destPath])

/-- The running totals reported by both engines. -/
structure Summary where
  imported : Nat
  skipped : Nat
  failed : Nat
deriving DecidableEq, Repr

/-- Total number of secrets accounted in some bucket. -/
def Summary.total (s : Summary) : Nat := s.imported + s.skipped + s.failed

/-- The result-aggregation branch of runParallelImport: one counter is
incremented per result (skipped, else success, else failed). -/
def classify (st : Summary) (r : ImportResult) : Summary :=
  if r.skipped then { st with skipped := st.skipped + 1 }
  else if r.success then { st with imported := st.imported + 1 }
  else { st with failed := st.failed + 1 }

/-- Everything runParallelImport produces: the final summary, the error
it returns (non-nil exactly when it returns a non-nil Go error), and the
Target calls made. -/
structure ParallelRun where
  summary : Summary
  retErr : Option String
  events : List TEvent
deriving DecidableEq, Repr

/-- runParallelImport from import.go: every secret yields exactly one
ImportResult (worker scheduling only permutes completion order, which the
counters are insensitive to); the run returns an error iff failed > 0. -/
def runParallelImport (client : Client) (skipExisting overwriteAll : Bool)
    (pfx : GoString) (secrets : List Secret) : ParallelRun :=
  let outcomes := secrets.map (importSecret client skipExisting overwriteAll pfx)
  let summary := (outcomes.map Prod.fst).foldl classify ⟨0, 0, 0⟩
  { summary := summary
    retErr :=
      if summary.failed > 0 then
        some (toString summary.failed ++ " secrets failed to import")
      else none
    events := (outcomes.map Prod.snd).flatten }

/-- ImportConfirmation from import.go. -/
inductive ImportConfirmation where
  | yes
  | no
  | yesToAll
  | noToAll
  | abort
deriving DecidableEq, Repr

/-- The mutable state of runInteractiveImport's loop. -/
structure InteractiveState where
  imported : Nat
  skipped : Nat
  failed : Nat
  confirmAll : Bool
  skipAll : Bool
deriving DecidableEq, Repr

/-- The counters of an interactive state. -/
def InteractiveState.toSummary (st : InteractiveState) : Summary :=
  ⟨st.imported, st.skipped, st.failed⟩

/-- How runInteractiveImport returns: normal completion (nil error),
user abort (nil error, partial totals), or a prompt failure (non-nil
error). -/
inductive IOutcome where
  | complete (summary : Summary)
  | aborted (summary : Summary)
  | promptFail (e : String) (summary : Summary)
deriving DecidableEq, Repr

/-- The Go error value runInteractiveImport returns for each outcome. -/
def IOutcome.retErr : IOutcome → Option String
  | .promptFail e _ => some ("prompt failed: " ++ e)
  | _ => none

/-- The counters held at the point the outcome was produced. -/
def IOutcome.summary : IOutcome → Summary
  | .complete s => s
  | .aborted s => s
  | .promptFail _ s => s

/-- The effect of one iteration of the interactive loop: continue with a
new state, or return from the function. -/
inductive StepOut where
  | next (st : InteractiveState) (events : List TEvent)
  | stop (out : IOutcome) (events : List TEvent)

/-- The tail of a loop iteration that writes the secret: a write failure
increments failed and continues, success increments imported. -/
def writeStep (client : Client) (destPath : GoString)
    (data : List (GoString × GoString)) (st : InteractiveState)
    (events : List TEvent) : StepOut :=
  match client.writeSecret destPath data with
  | .error _ => .next { st with failed := st.failed + 1 } (events ++ [.writeCall destPath])
  | .ok _ => .next { st with imported := st.imported + 1 } (events ++ [.writeCall destPath])

/-- One iteration of runInteractiveImport's loop on secret number i,
with `decisions i` the outcome of promptImport for that secret. When
neither sticky flag is set, the existence check happens first (its error
is only a warning), then the prompt. -/
def iStep (client : Client) (decisions : Nat → Except String ImportConfirmation)
    (pfx : GoString) (i : Nat) (s : Secret) (st : InteractiveState) : StepOut :=
  let destPath := pfx ++ s.path
  if st.skipAll then
    .next { st with skipped := st.skipped + 1 } []
  else if !st.confirmAll then
    let events := [TEvent.existsCheck destPath, TEvent.prompt i]
    match decisions i with
    | .error e => .stop (.promptFail e st.toSummary) events
    | .ok .no => .next { st with skipped := st.skipped + 1 } events
    | .ok .noToAll => .next { st with skipAll := true, skipped := st.skipped + 1 } events
    | .ok .abort => .stop (.aborted st.toSummary) events
    | .ok .yesToAll => writeStep client destPath s.data { st with confirmAll := true } events
    | .ok .yes => writeStep client destPath s.data st events
  else
    writeStep client destPath s.data st []

/-- The interactive loop from an arbitrary position and state. -/
def runInteractiveAux (client : Client)
    (decisions : Nat → Except String ImportConfirmation) (pfx : GoString) :
    List Secret → Nat → InteractiveState → IOutcome × List TEvent
  | [], _, st => (.complete st.toSummary, [])
  | s :: rest, i, st =>
    match iStep client decisions pfx i s st with
    | .stop out events => (out, events)
    | .next st2 events =>
      let r := runInteractiveAux client decisions pfx rest (i + 1) st2
      (r.1, events ++ r.2)

/-- The loop's initial state: zero counters, both sticky flags false. -/
def initState : InteractiveState := ⟨0, 0, 0, false, false⟩

/-- runInteractiveImport from import.go. -/
def runInteractiveImport (client : Client)
    (decisions : Nat → Except String ImportConfirmation) (pfx : GoString)
    (secrets : List Secret) : IOutcome × List TEvent :=
  runInteractiveAux client decisions pfx secrets 0 initState

/-- The import command's flags relevant to control flow. -/
structure ImportFlags where
  pathPrefix : GoString
  skipExisting : Bool
  overwriteAll : Bool
  interactive : Bool
  dryRun : Bool

/-- The externally visible actions of runImport, in order: reading the
export file, creating the client, the health probe, entering an engine
(with the conflict settings in force at that point), and Target calls. -/
inductive RunEvent where
  | readFile
  | createClient
  | healthCheck
  | engineRun (interactive skipExisting overwriteAll : Bool)
  | target (e : TEvent)
deriving DecidableEq, Repr

/-- runImport from import.go: flag validation, then (unless dry-run)
client creation, health check and one of the two engines. `fileResult`,
`clientResult` and `healthResult` model reading/validating the export
file, creating the client, and the health probe. Returns the Go error
and the ordered action trace. -/
def runImport (flags : ImportFlags) (fileResult : Except String (List Secret))
    (clientResult : Except String Client) (healthResult : Except String Unit)
    (decisions : Nat → Except String ImportConfirmation) :
    Option String × List RunEvent :=
  if flags.overwriteAll && flags.interactive then
    (some "--overwrite-all and --interactive cannot be used together", [])
  else
    let skipExisting := if flags.overwriteAll then false else flags.skipExisting
    match fileResult with
    | .error e => (some ("failed to read/validate export file: " ++ e), [.readFile])
    | .ok secrets =>
      let pfx := normalizePathPrefix flags.pathPrefix
      if flags.dryRun then (none, [.readFile])
      else
        match clientResult with
        | .error e =>
            (some ("failed to create OpenBao client: " ++ e), [.readFile, .createClient])
        | .ok client =>
          match healthResult with
          | .error e =>
              (some ("failed to connect to OpenBao: " ++ e),
               [.readFile, .createClient, .healthCheck])
          | .ok _ =>
            if flags.interactive then
              let r := runInteractiveImport client decisions pfx secrets
              (r.1.retErr,
               [.readFile, .createClient, .healthCheck,
                .engineRun true skipExisting flags.overwriteAll] ++ r.2.map RunEvent.target)
            else
              let r := runParallelImport client skipExisting flags.overwriteAll pfx secrets
              (r.retErr,
               [.readFile, .createClient, .healthCheck,
                .engineRun false skipExisting flags.overwriteAll] ++ r.events.map RunEvent.target)

/-- Whether writing this secret through the client succeeds. -/
def writeOk (client : Client) (pfx : GoString) (s : Secret) : Bool :=
  match client.writeSecret (pfx ++ s.path) s.data with
  | .ok _ => true
  | .error _ => false

/-- A client for which every existence check reports absence and every
write succeeds. -/
def cAllOk : Client :=
  { secretExists := fun _ => .ok false, writeSecret := fun _ _ => .ok () }

/-- A client for which every existence check reports absence and every
write fails. -/
def cWriteFail : Client :=
  { secretExists := fun _ => .ok false, writeSecret := fun _ _ => .error "boom" }

/-- A client whose existence checks themselves fail. -/
def cExistsErr : Client :=
  { secretExists := fun _ => .error "conn reset", writeSecret := fun _ _ => .ok () }

/-- A prompt oracle that always answers Yes. -/
def dYes : Nat → Except String ImportConfirmation := fun _ => .ok .yes

/-- A prompt oracle that always answers Abort. -/
def dAbort : Nat → Except String ImportConfirmation := fun _ => .ok .abort

/-- A prompt oracle whose prompt always fails (an input I/O error). -/
def dFail : Nat → Except String ImportConfirmation := fun _ => .error "pipe"

/-- The decision sequence Yes, No, YesToAll on the first three prompts. -/
def dYesNoYesToAll : Nat → Except String ImportConfirmation := fun i =>
  if i = 0 then .ok .yes else if i = 1 then .ok .no else .ok .yesToAll

/-- Four sample secrets. -/
def secA : Secret := ⟨['a'], []⟩

/-- Second sample secret. -/
def secB : Secret := ⟨['b'], []⟩

/-- Third sample secret. -/
def secC : Secret := ⟨['c'], []⟩

/-- Fourth sample secret. -/
def secD : Secret := ⟨['d'], []⟩

/-- C5: in parallel mode with SkipExisting on and OverwriteAll off, a
failing existence check yields a failed result with a wrapped error and
no write; exists=true yields skipped-success and no write; exists=false
leads to a write whose failure yields a failed result with the error
attached and whose success yields an imported result. -/
theorem c5_skip_existing_cases (client : Client) (pfx : GoString) (s : Secret) :
    (∀ e, client.secretExists (pfx ++ s.path) = .error e →
      importSecret client true false pfx s =
        ({ path := pfx ++ s.path, success := false, skipped := false,
           error := some ("failed to check existence: " ++ e) },
         [.existsCheck (pfx ++ s.path)]) ∧
      ∀ q, TEvent.writeCall q ∉ (importSecret client true false pfx s).2) ∧
    (client.secretExists (pfx ++ s.path) = .ok true →
      importSecret client true false pfx s =
        ({ path := pfx ++ s.path, success := true, skipped := true, error := none },
         [.existsCheck (pfx ++ s.path)]) ∧
      ∀ q, TEvent.writeCall q ∉ (importSecret client true false pfx s).2) ∧
    (client.secretExists (pfx ++ s.path) = .ok false →
      (∀ e, client.writeSecret (pfx ++ s.path) s.data = .error e →
        importSecret client true false pfx s =
          ({ path := pfx ++ s.path, success := false, skipped := false, error := some e },
           [.existsCheck (pfx ++ s.path), .writeCall (pfx ++ s.path)])) ∧
      (client.writeSecret (pfx ++ s.path) s.data = .ok () →
        importSecret client true false pfx s =
          ({ path := pfx ++ s.path, success := true, skipped := false, error := none },
           [.existsCheck (pfx ++ s.path), .writeCall (pfx ++ s.path)]))) := by
  refine ⟨fun e he => ?_, fun he => ?_, fun he => ⟨fun e hw => ?_, fun hw => ?_⟩⟩
  · simp [importSecret, he]
  · simp [importSecret, he]
  · simp [importSecret, he, hw]
  · simp [importSecret, he, hw]

/-- Witness for C5 at a concrete client whose existence check fails. -/
theorem c5_witness :
    importSecret cExistsErr true false [] secA =
      ({ path := ['a'], success := false, skipped := false,
         error := some ("failed to check existence: " ++ "conn reset") },
       [.existsCheck ['a']]) :=
  ((c5_skip_existing_cases cExistsErr [] secA).1 "conn reset" rfl).1

/-- C9: selecting overwrite-all together with interactive makes
runImport return the configuration error with an empty action trace (no
file read, no client creation, no Target call); and whenever
overwrite-all is selected, any engine invocation in the trace has
skip-existing forced off. -/
theorem c9_overwrite_all_validation (flags : ImportFlags)
    (fileResult : Except String (List Secret)) (clientResult : Except String Client)
    (healthResult : Except String Unit)
    (decisions : Nat → Except String ImportConfirmation) :
    (flags.overwriteAll = true → flags.interactive = true →
      runImport flags fileResult clientResult healthResult decisions =
        (some "--overwrite-all and --interactive cannot be used together", [])) ∧
    (flags.overwriteAll = true → ∀ b se oa,
      RunEvent.engineRun b se oa ∈
          (runImport flags fileResult clientResult healthResult decisions).2 →
      se = false) := by
  constructor
  · intro h1 h2
    simp [runImport, h1, h2]
  · intro h1 b se oa hm
    cases h2 : flags.interactive
    · rcases fileResult with e | secrets
      · simp [runImport, h1, h2] at hm
      · by_cases h3 : flags.dryRun
        · simp [runImport, h1, h2, h3] at hm
        · rcases clientResult with e | client
          · simp [runImport, h1, h2, h3] at hm
          · rcases healthResult with e | u
            · simp [runImport, h1, h2, h3] at hm
            · simp [runImport, h1, h2, h3] at hm
              exact hm.2.1
    · simp [runImport, h1, h2] at hm

/-- Witness for C9: both flags selected at concrete arguments. -/
theorem c9_witness :
    runImport ⟨[], true, true, true, false⟩ (.ok [secA]) (.ok cAllOk) (.ok ()) dYes =
      (some "--overwrite-all and --interactive cannot be used together", []) :=
  (c9_overwrite_all_validation ⟨[], true, true, true, false⟩ (.ok [secA]) (.ok cAllOk)
    (.ok ()) dYes).1 rfl rfl

/-- C10: in the Deciding state (neither sticky flag set), a failing
prompt for the current secret terminates the run immediately with a
non-nil (wrapped) error; the counters still hold only the totals of the
already-processed secrets, the only calls recorded for this iteration
are the existence check and the prompt (no write, nothing for later
secrets), while a user-chosen Abort in the same position returns a nil
error. -/
theorem c10_prompt_failure (client : Client)
    (decisions decisions2 : Nat → Except String ImportConfirmation)
    (pfx : GoString) (s : Secret) (rest : List Secret) (i : Nat)
    (st : InteractiveState) (e : String)
    (h1 : st.skipAll = false) (h2 : st.confirmAll = false)
    (hd : decisions i = .error e) :
    runInteractiveAux client decisions pfx (s :: rest) i st =
      (.promptFail e ⟨st.imported, st.skipped, st.failed⟩,
       [.existsCheck (pfx ++ s.path), .prompt i]) ∧
    (runInteractiveAux client decisions pfx (s :: rest) i st).1.retErr =
      some ("prompt failed: " ++ e) ∧
    (decisions2 i = .ok .abort →
      (runInteractiveAux client decisions2 pfx (s :: rest) i st).1.retErr = none) := by
  refine ⟨?_, ?_, fun hab => ?_⟩
  · simp [runInteractiveAux, iStep, h1, h2, hd, InteractiveState.toSummary]
  · simp [runInteractiveAux, iStep, h1, h2, hd, IOutcome.retErr]
  · simp [runInteractiveAux, iStep, h1, h2, hab, IOutcome.retErr]

/-- Witness for C10: a failing prompt on the first secret. -/
theorem c10_witness :
    runInteractiveAux cAllOk dFail [] [secA] 0 initState =
      (.promptFail "pipe" ⟨0, 0, 0⟩, [.existsCheck ['a'], .prompt 0]) :=
  (c10_prompt_failure cAllOk dFail dAbort [] secA [] 0 initState "pipe" rfl rfl rfl).1

/-- C8 counterexample: when the user answers Abort for the first secret,
the existence check for that secret has already been made, so the claim
that no existence check occurs for the k-th secret fails. -/
theorem c8_counterexample :
    (runInteractiveImport cAllOk dAbort [] [secA]).1 = .aborted ⟨0, 0, 0⟩ ∧
    TEvent.existsCheck ['a'] ∈ (runInteractiveImport cAllOk dAbort [] [secA]).2 := by
  decide

/-- C8 amended: in the Deciding state, an Abort decision for the current
secret stops processing at once: the function returns with exactly the
counters accumulated for the previously processed secrets (the current
and remaining secrets land in no bucket), the current secret is never
written, and the only calls of this iteration are its pre-prompt
existence check and the prompt itself — nothing happens for later
secrets. -/
theorem c8_abort_stops (client : Client)
    (decisions : Nat → Except String ImportConfirmation) (pfx : GoString)
    (s : Secret) (rest : List Secret) (i : Nat) (st : InteractiveState)
    (h1 : st.skipAll = false) (h2 : st.confirmAll = false)
    (hd : decisions i = .ok .abort) :
    runInteractiveAux client decisions pfx (s :: rest) i st =
      (.aborted ⟨st.imported, st.skipped, st.failed⟩,
       [.existsCheck (pfx ++ s.path), .prompt i]) := by
  simp [runInteractiveAux, iStep, h1, h2, hd, InteractiveState.toSummary]

/-- Witness for the amended C8: Abort on the second of three secrets
with one secret already imported. -/
theorem c8_witness :
    runInteractiveAux cAllOk dAbort [] [secB, secC] 1 ⟨1, 0, 0, false, false⟩ =
      (.aborted ⟨1, 0, 0⟩, [.existsCheck ['b'], .prompt 1]) :=
  c8_abort_stops cAllOk dAbort [] secB [secC] 1 ⟨1, 0, 0, false, false⟩ rfl rfl rfl

/-- C1 counterexample: an interactive run whose single write fails ends
with failed = 1 yet returns a nil error, so a non-nil return is not
equivalent to failed > 0. -/
theorem c1_counterexample :
    (runInteractiveImport cWriteFail dYes [] [secA]).1.summary.failed = 1 ∧
    (runInteractiveImport cWriteFail dYes [] [secA]).1.retErr = none ∧
    ¬((runInteractiveImport cWriteFail dYes [] [secA]).1.retErr ≠ none ↔
      0 < (runInteractiveImport cWriteFail dYes [] [secA]).1.summary.failed) := by
  decide

/-- C1 amended: runParallelImport returns a non-nil error exactly when
its failed counter is positive at completion; runInteractiveImport
returns nil both on normal completion and on user abort — regardless of
its failed counter — and returns a non-nil error exactly when a prompt
failed. -/
theorem c1_terminal_status (client : Client) (skipExisting overwriteAll : Bool)
    (pfx : GoString) (secrets : List Secret) (client2 : Client)
    (decisions : Nat → Except String ImportConfirmation)
    (pfx2 : GoString) (secrets2 : List Secret) :
    ((runParallelImport client skipExisting overwriteAll pfx secrets).retErr ≠ none ↔
      0 < (runParallelImport client skipExisting overwriteAll pfx secrets).summary.failed) ∧
    (∀ s, (runInteractiveImport client2 decisions pfx2 secrets2).1 = .complete s ∨
          (runInteractiveImport client2 decisions pfx2 secrets2).1 = .aborted s →
      (runInteractiveImport client2 decisions pfx2 secrets2).1.retErr = none) ∧
    (∀ e s, (runInteractiveImport client2 decisions pfx2 secrets2).1 = .promptFail e s →
      (runInteractiveImport client2 decisions pfx2 secrets2).1.retErr =
        some ("prompt failed: " ++ e)) := by
  refine ⟨?_, fun s hs => ?_, fun e s hp => ?_⟩
  · unfold runParallelImport
    dsimp only
    split
    · next h => exact ⟨fun _ => h, fun _ => Option.some_ne_none _⟩
    · next h => exact ⟨fun hne => absurd rfl hne, fun hlt => absurd hlt h⟩

  · rcases hs with h | h <;> simp [h, IOutcome.retErr]
  · simp [hp, IOutcome.retErr]

/-- Witness for the amended C1: a successful one-secret interactive run
returns a nil error. -/
theorem c1_witness :
    (runInteractiveImport cAllOk dYes [] [secA]).1.retErr = none :=
  (c1_terminal_status cAllOk true false [] [] cAllOk dYes [] [secA]).2.1
    ⟨1, 0, 0⟩ (Or.inl (by decide))

/-- C2 counterexample: with decisions Yes, No, YesToAll over four
secrets and every write succeeding, the summary is imported = 3 (the
YesToAll secret itself is written, as is the fourth), not imported = 2. -/
theorem c2_counterexample :
    (runInteractiveImport cAllOk dYesNoYesToAll [] [secA, secB, secC, secD]).1.summary =
      ⟨3, 1, 0⟩ ∧
    (runInteractiveImport cAllOk dYesNoYesToAll [] [secA, secB, secC, secD]).1.summary ≠
      ⟨2, 1, 0⟩ := by
  decide

/-- C2 amended: in interactive mode, for a stream of 4 secrets with
decision sequence Yes, No, YesToAll on the first three prompts and every
attempted write succeeding, the final summary is imported = 3,
skipped = 1, failed = 0. -/
theorem c2_decision_sequence (client : Client)
    (decisions : Nat → Except String ImportConfirmation) (pfx : GoString)
    (s1 s2 s3 s4 : Secret)
    (h0 : decisions 0 = .ok .yes) (h1 : decisions 1 = .ok .no)
    (h2 : decisions 2 = .ok .yesToAll)
    (hw : ∀ p d, client.writeSecret p d = .ok ()) :
    (runInteractiveImport client decisions pfx [s1, s2, s3, s4]).1 =
      .complete ⟨3, 1, 0⟩ := by
  simp [runInteractiveImport, runInteractiveAux, iStep, writeStep, initState,
        h0, h1, h2, hw, InteractiveState.toSummary]

/-- Witness for the amended C2 at concrete secrets and client. -/
theorem c2_witness :
    (runInteractiveImport cAllOk dYesNoYesToAll [] [secA, secB, secC, secD]).1 =
      .complete ⟨3, 1, 0⟩ :=
  c2_decision_sequence cAllOk dYesNoYesToAll [] secA secB secC secD rfl rfl rfl
    (fun _ _ => rfl)

/-- Appending a slash makes the last character a slash. -/
lemma endsWithSlash_concat (l : GoString) : endsWithSlash (l ++ ['/']) = true := by
  simp [endsWithSlash, List.getLast?_concat]

/-- The last element of a cons is the last element of its nonempty tail. -/
lemma getLast?_cons_ne_nil (c : Char) (t : GoString) (h : t ≠ []) :
    (c :: t).getLast? = t.getLast? := by
  rcases t with _ | ⟨d, t'⟩
  · exact absurd rfl h
  · exact List.getLast?_cons_cons

/-- Appending a trailing slash cannot create a double leading slash. -/
lemma startsWithTwoSlashes_concat (p : GoString) (h0 : p ≠ []) (h1 : p ≠ ['/'])
    (h2 : startsWithTwoSlashes p = false) :
    startsWithTwoSlashes (p ++ ['/']) = false := by
  rcases p with _ | ⟨c, t⟩
  · exact absurd rfl h0
  · rcases t with _ | ⟨d, t'⟩
    · have hc : c ≠ '/' := fun hc => h1 (by rw [hc])
      simp [startsWithTwoSlashes, hc]
    · simpa [startsWithTwoSlashes] using h2

/-- Trimming one leading slash from a slash-terminated string without a
double leading slash leaves a nonempty, slash-terminated string whose
first character is not a slash. -/
lemma trim_shape (q : GoString) (hq1 : q ≠ ['/'])
    (hqe : endsWithSlash q = true) (hq2 : startsWithTwoSlashes q = false) :
    trimLeadingSlash q ≠ [] ∧
    (trimLeadingSlash q).head? ≠ some '/' ∧
    endsWithSlash (trimLeadingSlash q) = true := by
  rcases q with _ | ⟨c, t⟩
  · simp [endsWithSlash] at hqe
  · by_cases hc : c = '/'
    · subst hc
      rcases t with _ | ⟨d, t'⟩
      · exact absurd rfl hq1
      · have hd : d ≠ '/' := by simpa [startsWithTwoSlashes] using hq2
        have hend : (d :: t').getLast? = some '/' := by
          rw [← List.getLast?_cons_cons (a := '/')]
          simpa [endsWithSlash] using hqe
        exact ⟨by simp [trimLeadingSlash], by simp [trimLeadingSlash, hd],
               by simp [trimLeadingSlash, endsWithSlash, hend]⟩
    · exact ⟨by simp [trimLeadingSlash, hc], by simp [trimLeadingSlash, hc],
             by simpa [trimLeadingSlash, hc, endsWithSlash] using hqe⟩

/-- Trimming one leading slash preserves the absence of a trailing
double slash. -/
lemma trim_no_two (q : GoString) (hq1 : q ≠ ['/'])
    (hqe : endsWithSlash q = true) (hq2 : startsWithTwoSlashes q = false)
    (hqt : endsWithTwoSlashes q = false) :
    endsWithTwoSlashes (trimLeadingSlash q) = false := by
  rcases q with _ | ⟨c, t⟩
  · simp [endsWithSlash] at hqe
  · by_cases hc : c = '/'
    · subst hc
      rcases t with _ | ⟨d, t'⟩
      · exact absurd rfl hq1
      · rcases t' with _ | ⟨e, t''⟩
        · simp [endsWithSlash] at hqe
          simp [startsWithTwoSlashes, hqe] at hq2
        · have hdq : endsWithSlash (('/' :: d :: e :: t'').dropLast) = false := by
            simp [endsWithTwoSlashes, hqe] at hqt
            exact hqt
          rw [List.dropLast_cons_of_ne_nil (by simp)] at hdq
          have hne : (d :: e :: t'').dropLast ≠ [] := by
            rw [List.dropLast_cons_of_ne_nil (by simp)]
            simp
          simp [endsWithSlash, getLast?_cons_ne_nil _ _ hne] at hdq
          simp [trimLeadingSlash, endsWithTwoSlashes, endsWithSlash, hdq]
    · simpa [trimLeadingSlash, hc] using hqt

/-- Appending a slash to a string not already ending in one cannot
produce a trailing double slash. -/
lemma endsWithTwoSlashes_concat (p : GoString) (he : endsWithSlash p = false) :
    endsWithTwoSlashes (p ++ ['/']) = false := by
  simp [endsWithTwoSlashes, List.dropLast_concat, he, endsWithSlash_concat]

/-- For a prefix other than the two degenerate ones, normalizePathPrefix
is the trim of the slash-terminated form. -/
lemma norm_eq_trim (p : GoString) (h0 : p ≠ []) (h1 : p ≠ ['/']) :
    normalizePathPrefix p =
      trimLeadingSlash (if endsWithSlash p then p else p ++ ['/']) := by
  simp [normalizePathPrefix, h0, h1]

/-- The slash-terminated form of a non-degenerate prefix without a
double leading slash is not "/", ends with a slash, and still has no
double leading slash. -/
lemma ensure_trailing_props (p : GoString) (h0 : p ≠ []) (h1 : p ≠ ['/'])
    (h2 : startsWithTwoSlashes p = false) :
    (if endsWithSlash p then p else p ++ ['/']) ≠ ['/'] ∧
    endsWithSlash (if endsWithSlash p then p else p ++ ['/']) = true ∧
    startsWithTwoSlashes (if endsWithSlash p then p else p ++ ['/']) = false := by
  by_cases he : endsWithSlash p = true
  · simp only [he, if_pos rfl]
    exact ⟨h1, he, h2⟩
  · have he2 : endsWithSlash p = false := by
      cases hb : endsWithSlash p
      · rfl
      · exact absurd hb he
    rw [if_neg (by simp [he2])]
    refine ⟨?_, endsWithSlash_concat p, startsWithTwoSlashes_concat p h0 h1 h2⟩
    intro hx
    have hlen := congrArg List.length hx
    simp at hlen
    exact h0 hlen

/-- The normalized form of a non-degenerate prefix without a double
leading slash is nonempty, has no leading slash, and ends with a slash. -/
lemma norm_shape (p : GoString) (h0 : p ≠ []) (h1 : p ≠ ['/'])
    (h2 : startsWithTwoSlashes p = false) :
    normalizePathPrefix p ≠ [] ∧
    (normalizePathPrefix p).head? ≠ some '/' ∧
    endsWithSlash (normalizePathPrefix p) = true := by
  obtain ⟨g1, g2, g3⟩ := ensure_trailing_props p h0 h1 h2
  rw [norm_eq_trim p h0 h1]
  exact trim_shape _ g1 g2 g3

/-- Any nonempty string with no leading slash and a trailing slash is a
fixed point of normalizePathPrefix. -/
lemma norm_fixpoint (r : GoString) (h0 : r ≠ [])
    (h2 : r.head? ≠ some '/') (h3 : endsWithSlash r = true) :
    normalizePathPrefix r = r := by
  rcases r with _ | ⟨c, t⟩
  · exact absurd rfl h0
  · have hc : c ≠ '/' := by simpa using h2
    have h1 : c :: t ≠ ['/'] := by
      intro hx
      cases hx
      exact hc rfl
    rw [norm_eq_trim _ h0 h1]
    simp only [h3, if_pos rfl]
    simp [trimLeadingSlash, hc]

/-- Normalizing a non-degenerate prefix with neither a double leading
slash nor a double trailing slash leaves no double trailing slash. -/
lemma norm_no_two (p : GoString) (h0 : p ≠ []) (h1 : p ≠ ['/'])
    (h2 : startsWithTwoSlashes p = false) (h3 : endsWithTwoSlashes p = false) :
    endsWithTwoSlashes (normalizePathPrefix p) = false := by
  obtain ⟨g1, g2, g3⟩ := ensure_trailing_props p h0 h1 h2
  have g4 : endsWithTwoSlashes (if endsWithSlash p then p else p ++ ['/']) = false := by
    by_cases he : endsWithSlash p = true
    · simpa [he] using h3
    · have he2 : endsWithSlash p = false := by
        cases hb : endsWithSlash p
        · rfl
        · exact absurd hb he
      rw [if_neg (by simp [he2])]
      exact endsWithTwoSlashes_concat p he2
  rw [norm_eq_trim p h0 h1]
  exact trim_no_two _ g1 g2 g3 g4

/-- C3 counterexample: normalizePathPrefix maps "//" to "/" (TrimPrefix
removes only one leading slash), and normalizing again gives "", so
normalization is not idempotent on "//". -/
theorem c3_counterexample :
    normalizePathPrefix ['/', '/'] = ['/'] ∧
    normalizePathPrefix (normalizePathPrefix ['/', '/']) ≠
      normalizePathPrefix ['/', '/'] := by
  decide

/-- C3 amended: normalizePathPrefix maps "" and "/" to "", and it is
idempotent on every prefix that does not start with two slashes. -/
theorem c3_normalize_idempotent (p : GoString)
    (h : startsWithTwoSlashes p = false) :
    normalizePathPrefix [] = [] ∧ normalizePathPrefix ['/'] = [] ∧
    normalizePathPrefix (normalizePathPrefix p) = normalizePathPrefix p := by
  refine ⟨by simp [normalizePathPrefix], by simp [normalizePathPrefix], ?_⟩
  by_cases h0 : p = []
  · subst h0
    simp [normalizePathPrefix]
  by_cases h1 : p = ['/']
  · subst h1
    simp [normalizePathPrefix]
  obtain ⟨g1, g2, g3⟩ := norm_shape p h0 h1 h
  exact norm_fixpoint _ g1 g2 g3

/-- Witness for the amended C3 on the prefix "ab". -/
theorem c3_witness :
    normalizePathPrefix (normalizePathPrefix ['a', 'b']) =
      normalizePathPrefix ['a', 'b'] :=
  (c3_normalize_idempotent ['a', 'b'] (by decide)).2.2

/-- C4 counterexample: the prefix "//" is neither "" nor "/", yet its
normalized form "/" starts with a slash. -/
theorem c4_counterexample :
    (['/', '/'] : GoString) ≠ [] ∧ (['/', '/'] : GoString) ≠ ['/'] ∧
    (normalizePathPrefix ['/', '/']).head? = some '/' := by
  decide

/-- C4 amended: for every prefix other than "" and "/" that neither
starts nor ends with two slashes, the normalized form has no leading
slash and ends with exactly one trailing slash. -/
theorem c4_prefix_shape (p : GoString) (h0 : p ≠ []) (h1 : p ≠ ['/'])
    (h2 : startsWithTwoSlashes p = false) (h3 : endsWithTwoSlashes p = false) :
    (normalizePathPrefix p).head? ≠ some '/' ∧
    endsWithSlash (normalizePathPrefix p) = true ∧
    endsWithTwoSlashes (normalizePathPrefix p) = false :=
  ⟨(norm_shape p h0 h1 h2).2.1, (norm_shape p h0 h1 h2).2.2,
   norm_no_two p h0 h1 h2 h3⟩

/-- Witness for the amended C4 on the prefix "a/". -/
theorem c4_witness :
    (normalizePathPrefix ['a', '/']).head? ≠ some '/' ∧
    endsWithSlash (normalizePathPrefix ['a', '/']) = true ∧
    endsWithTwoSlashes (normalizePathPrefix ['a', '/']) = false :=
  c4_prefix_shape ['a', '/'] (by decide) (by decide) (by decide) (by decide)

/-- A continuing loop iteration bumps exactly one of the three counters. -/
lemma iStep_next_summary (client : Client)
    (decisions : Nat → Except String ImportConfirmation) (pfx : GoString)
    (i : Nat) (s : Secret) (st st2 : InteractiveState) (evs : List TEvent)
    (h : iStep client decisions pfx i s st = .next st2 evs) :
    st2.toSummary = { st.toSummary with skipped := st.skipped + 1 } ∨
    st2.toSummary = { st.toSummary with imported := st.imported + 1 } ∨
    st2.toSummary = { st.toSummary with failed := st.failed + 1 } := by
  simp only [iStep, writeStep] at h
  repeat' split at h
  all_goals cases h
  all_goals simp [InteractiveState.toSummary]

/-- Counter arithmetic of one continuing loop iteration: counters never
decrease and their sum grows by exactly one. -/
lemma iStep_next_counters (client : Client)
    (decisions : Nat → Except String ImportConfirmation) (pfx : GoString)
    (i : Nat) (s : Secret) (st st2 : InteractiveState) (evs : List TEvent)
    (h : iStep client decisions pfx i s st = .next st2 evs) :
    st.imported ≤ st2.imported ∧ st.skipped ≤ st2.skipped ∧ st.failed ≤ st2.failed ∧
    st2.imported + st2.skipped + st2.failed =
      st.imported + st.skipped + st.failed + 1 := by
  rcases iStep_next_summary client decisions pfx i s st st2 evs h with h1 | h1 | h1 <;>
    · have hi := congrArg Summary.imported h1
      have hs := congrArg Summary.skipped h1
      have hf := congrArg Summary.failed h1
      simp [InteractiveState.toSummary] at hi hs hf
      omega

/-- A terminating loop iteration reports exactly the counters held on
entry and is never a normal completion. -/
lemma iStep_stop_shape (client : Client)
    (decisions : Nat → Except String ImportConfirmation) (pfx : GoString)
    (i : Nat) (s : Secret) (st : InteractiveState) (out : IOutcome)
    (evs : List TEvent) (h : iStep client decisions pfx i s st = .stop out evs) :
    out.summary = st.toSummary ∧ ∀ sm, out ≠ .complete sm := by
  simp only [iStep, writeStep] at h
  repeat' split at h
  all_goals cases h
  all_goals simp [IOutcome.summary]

/-- The sticky flags across one continuing iteration: a set flag stays
set, the other flag is untouched, and the flags never become both true. -/
lemma iStep_next_flags (client : Client)
    (decisions : Nat → Except String ImportConfirmation) (pfx : GoString)
    (i : Nat) (s : Secret) (st st2 : InteractiveState) (evs : List TEvent)
    (h : iStep client decisions pfx i s st = .next st2 evs) :
    (st.confirmAll = true → st2.confirmAll = true ∧ st2.skipAll = st.skipAll) ∧
    (st.skipAll = true → st2.skipAll = true ∧ st2.confirmAll = st.confirmAll) ∧
    ((st.confirmAll = false ∨ st.skipAll = false) →
      (st2.confirmAll = false ∨ st2.skipAll = false)) := by
  simp only [iStep, writeStep] at h
  repeat' split at h
  all_goals cases h
  all_goals simp_all

/-- Once skipAll holds, the rest of the stream is skipped wholesale:
no prompt, no existence check, no write, only the skipped counter grows. -/
lemma aux_skipAll (client : Client)
    (decisions : Nat → Except String ImportConfirmation) (pfx : GoString) :
    ∀ (secrets : List Secret) (i : Nat) (st : InteractiveState),
      st.skipAll = true →
      runInteractiveAux client decisions pfx secrets i st =
        (.complete ⟨st.imported, st.skipped + secrets.length, st.failed⟩, [])
  | [], i, st, h => by simp [runInteractiveAux, InteractiveState.toSummary]
  | s :: rest, i, st, h => by
    have ih := aux_skipAll client decisions pfx rest (i + 1)
      { st with skipped := st.skipped + 1, skipAll := true } rfl
    simp [runInteractiveAux, iStep, h, ih]
    omega

/-- Once confirmAll holds (and skipAll does not), every remaining secret
is written with no prompt and no existence check; successes and failures
split the stream by whether the write succeeds. -/
lemma aux_confirmAll (client : Client)
    (decisions : Nat → Except String ImportConfirmation) (pfx : GoString) :
    ∀ (secrets : List Secret) (i : Nat) (st : InteractiveState),
      st.confirmAll = true → st.skipAll = false →
      runInteractiveAux client decisions pfx secrets i st =
        (.complete ⟨st.imported + secrets.countP (writeOk client pfx),
                    st.skipped,
                    st.failed + secrets.countP (fun s => !writeOk client pfx s)⟩,
         secrets.map (fun s => .writeCall (pfx ++ s.path)))
  | [], i, st, hc, hs => by simp [runInteractiveAux, InteractiveState.toSummary]
  | s :: rest, i, st, hc, hs => by
    cases hw : client.writeSecret (pfx ++ s.path) s.data with
    | error e =>
      have hko : writeOk client pfx s = false := by simp [writeOk, hw]
      have ih := aux_confirmAll client decisions pfx rest (i + 1)
        { st with failed := st.failed + 1, confirmAll := true, skipAll := false } rfl rfl
      simp [runInteractiveAux, iStep, writeStep, hc, hs, hw, ih,
            List.countP_cons, hko]
      omega
    | ok u =>
      have hko : writeOk client pfx s = true := by simp [writeOk, hw]
      have ih := aux_confirmAll client decisions pfx rest (i + 1)
        { st with imported := st.imported + 1, confirmAll := true, skipAll := false } rfl rfl
      simp [runInteractiveAux, iStep, writeStep, hc, hs, hw, ih,
            List.countP_cons, hko]
      omega

/-- Counter bounds of the interactive loop: the final counters dominate
the entry counters, their sum grows by at most the number of remaining
secrets, and on normal completion by exactly that number. -/
lemma aux_counter_bounds (client : Client)
    (decisions : Nat → Except String ImportConfirmation) (pfx : GoString) :
    ∀ (secrets : List Secret) (i : Nat) (st : InteractiveState),
      st.imported ≤ (runInteractiveAux client decisions pfx secrets i st).1.summary.imported ∧
      st.skipped ≤ (runInteractiveAux client decisions pfx secrets i st).1.summary.skipped ∧
      st.failed ≤ (runInteractiveAux client decisions pfx secrets i st).1.summary.failed ∧
      (runInteractiveAux client decisions pfx secrets i st).1.summary.imported +
          (runInteractiveAux client decisions pfx secrets i st).1.summary.skipped +
          (runInteractiveAux client decisions pfx secrets i st).1.summary.failed ≤
        st.imported + st.skipped + st.failed + secrets.length ∧
      (∀ sm, (runInteractiveAux client decisions pfx secrets i st).1 = .complete sm →
        sm.imported + sm.skipped + sm.failed =
          st.imported + st.skipped + st.failed + secrets.length)
  | [], i, st => by
    simp [runInteractiveAux, IOutcome.summary, InteractiveState.toSummary]
  | s :: rest, i, st => by
    cases hstep : iStep client decisions pfx i s st with
    | stop out evs =>
      obtain ⟨hsum, hnc⟩ := iStep_stop_shape client decisions pfx i s st out evs hstep
      have hi := congrArg Summary.imported hsum
      have hs := congrArg Summary.skipped hsum
      have hf := congrArg Summary.failed hsum
      simp [InteractiveState.toSummary] at hi hs hf
      simp only [runInteractiveAux, hstep, List.length_cons]
      refine ⟨?_, ?_, ?_, ?_, fun sm hc => absurd hc (hnc sm)⟩ <;> simp [hi, hs, hf]
    | next st2 evs =>
      obtain ⟨h1, h2, h3, h4⟩ :=
        iStep_next_counters client decisions pfx i s st st2 evs hstep
      obtain ⟨g1, g2, g3, g4, g5⟩ := aux_counter_bounds client decisions pfx rest (i + 1) st2
      simp only [runInteractiveAux, hstep, List.length_cons]
      refine ⟨by omega, by omega, by omega, by omega, fun sm hc => ?_⟩
      have := g5 sm hc
      omega

/-- Aggregating one ImportResult increments exactly one of the three
counters: skipped results bump skipped, successes bump imported, and
everything else bumps failed. -/
lemma classify_bump (st : Summary) (r : ImportResult) :
    classify st r = { st with skipped := st.skipped + 1 } ∨
    classify st r = { st with imported := st.imported + 1 } ∨
    classify st r = { st with failed := st.failed + 1 } := by
  unfold classify
  split
  · exact Or.inl rfl
  · split
    · exact Or.inr (Or.inl rfl)
    · exact Or.inr (Or.inr rfl)

/-- Aggregating one result grows the counter total by exactly one. -/
lemma classify_total (st : Summary) (r : ImportResult) :
    (classify st r).total = st.total + 1 := by
  rcases classify_bump st r with h | h | h <;> simp [h, Summary.total] <;> omega

/-- Folding the aggregation over a result list adds its length to the
counter total. -/
lemma foldl_classify_total (rs : List ImportResult) (st : Summary) :
    (rs.foldl classify st).total = st.total + rs.length := by
  induction rs generalizing st with
  | nil => simp
  | cons r rs ih => simp [List.foldl_cons, ih, classify_total]; omega

/-- The parallel engine's final counters always sum to the number of
secrets in the stream. -/
lemma parallel_summary_total (client : Client) (skipExisting overwriteAll : Bool)
    (pfx : GoString) (secrets : List Secret) :
    (runParallelImport client skipExisting overwriteAll pfx secrets).summary.total =
      secrets.length := by
  unfold runParallelImport
  dsimp only
  rw [foldl_classify_total]
  simp [Summary.total]

/-- C6: every processed secret bumps exactly one of the three counters
(the parallel aggregation step is one of the three single-counter bumps,
and each continuing interactive iteration leaves every counter no
smaller and grows their sum by exactly one), so in parallel mode the
final sum equals the stream length, and an interactive run ends with a
sum of at most the stream length — with equality on normal completion. -/
theorem c6_accounting (client : Client) (skipExisting overwriteAll : Bool)
    (pfx : GoString) (secrets : List Secret) (client2 : Client)
    (decisions : Nat → Except String ImportConfirmation) (pfx2 : GoString)
    (secrets2 : List Secret) :
    (∀ st r, classify st r = { st with skipped := st.skipped + 1 } ∨
             classify st r = { st with imported := st.imported + 1 } ∨
             classify st r = { st with failed := st.failed + 1 }) ∧
    (runParallelImport client skipExisting overwriteAll pfx secrets).summary.total =
      secrets.length ∧
    (∀ i s st st2 evs, iStep client2 decisions pfx2 i s st = .next st2 evs →
      st.imported ≤ st2.imported ∧ st.skipped ≤ st2.skipped ∧ st.failed ≤ st2.failed ∧
      st2.imported + st2.skipped + st2.failed =
        st.imported + st.skipped + st.failed + 1) ∧
    (runInteractiveImport client2 decisions pfx2 secrets2).1.summary.total ≤
      secrets2.length ∧
    (∀ sm, (runInteractiveImport client2 decisions pfx2 secrets2).1 = .complete sm →
      sm.total = secrets2.length) := by
  have hb := aux_counter_bounds client2 decisions pfx2 secrets2 0 initState
  refine ⟨classify_bump,
    parallel_summary_total client skipExisting overwriteAll pfx secrets,
    fun i s st st2 evs h => iStep_next_counters client2 decisions pfx2 i s st st2 evs h,
    ?_, fun sm hc => ?_⟩
  · have hle := hb.2.2.2.1
    simp [initState] at hle
    simp [runInteractiveImport, initState, Summary.total]
    omega
  · simp [runInteractiveImport, initState] at hc
    have heq := hb.2.2.2.2 sm hc
    simp [initState] at heq
    simp [Summary.total]
    omega

/-- Witness for C6: one continuing interactive iteration at concrete
arguments bumps the imported counter. -/
theorem c6_witness :
    initState.imported ≤ 1 ∧ initState.skipped ≤ 0 ∧ initState.failed ≤ 0 ∧
    1 + 0 + 0 = initState.imported + initState.skipped + initState.failed + 1 :=
  (c6_accounting cAllOk true false [] [] cAllOk dYes [] []).2.2.1 0 secA initState
    ⟨1, 0, 0, false, false⟩ [.existsCheck ['a'], .prompt 0, .writeCall ['a']] rfl

/-- C7: confirmAll and skipAll both start false; a continuing iteration
keeps a set flag set, never touches the other, and never makes both
true; while skipAll holds every remaining secret is skipped with no
Target call or prompt at all, and while confirmAll holds every remaining
secret is written with no prompt and no existence check. -/
theorem c7_sticky_flags (client : Client)
    (decisions : Nat → Except String ImportConfirmation) (pfx : GoString) :
    (initState.confirmAll = false ∧ initState.skipAll = false) ∧
    (∀ i s st st2 evs, iStep client decisions pfx i s st = .next st2 evs →
      (st.confirmAll = true → st2.confirmAll = true ∧ st2.skipAll = st.skipAll) ∧
      (st.skipAll = true → st2.skipAll = true ∧ st2.confirmAll = st.confirmAll) ∧
      ((st.confirmAll = false ∨ st.skipAll = false) →
        (st2.confirmAll = false ∨ st2.skipAll = false))) ∧
    (∀ secrets i st, st.skipAll = true →
      runInteractiveAux client decisions pfx secrets i st =
        (.complete ⟨st.imported, st.skipped + secrets.length, st.failed⟩, [])) ∧
    (∀ secrets i st, st.confirmAll = true → st.skipAll = false →
      runInteractiveAux client decisions pfx secrets i st =
        (.complete ⟨st.imported + secrets.countP (writeOk client pfx), st.skipped,
                    st.failed + secrets.countP (fun s => !writeOk client pfx s)⟩,
         secrets.map (fun s => .writeCall (pfx ++ s.path)))) :=
  ⟨⟨rfl, rfl⟩,
   fun i s st st2 evs h => iStep_next_flags client decisions pfx i s st st2 evs h,
   fun secrets i st h => aux_skipAll client decisions pfx secrets i st h,
   fun secrets i st hc hs => aux_confirmAll client decisions pfx secrets i st hc hs⟩

/-- Witness for C7: with skipAll set, two remaining secrets are both
skipped with an empty call trace. -/
theorem c7_witness :
    runInteractiveAux cAllOk dYes [] [secA, secB] 0 ⟨0, 1, 0, false, true⟩ =
      (.complete ⟨0, 3, 0⟩, []) :=
  (c7_sticky_flags cAllOk dYes []).2.2.1 [secA, secB] 0 ⟨0, 1, 0, false, true⟩ rfl

end Importer
